import Mathlib

/-!
Verification of the order ingestion and queue-consumption pipeline of the
order-processing backend (Express API + SQS worker + PostgreSQL store).

The definitions below are shallow embeddings of the TypeScript source:
  * `insertOrder`, `getOrders`               — src/app/backend/src/models/order.ts
  * `createOrdersTable` schema (PRIMARY KEY) — src/app/backend/src/database.ts
  * the POST /api/orders and GET /api/orders route handlers
                                             — src/app/backend/src/routes/orders.ts
  * `processMessage`, `deleteMessage`, `pollQueue`, `continuousPolling`,
    `startSqsWorker`, `stopSqsWorker`, `isWorkerRunning`
                                             — the SQS handler module
  * `gracefulShutdown` and the process-level error handlers — the main module

JavaScript numbers are modelled as rationals (ℚ), JS truthiness of a number
is `≠ 0`, of a string is `≠ ""`; a missing (undefined) string field behaves
exactly like `""` under the `!x` checks the code performs, and a missing
numeric field like `0`, so both are folded into those values.  Database and
queue effects are modelled by explicit state passing (the table is a list of
rows) and by failure oracles (which calls throw), with the emitted side
effects recorded as an event trace.
-/

/-- A line item of an inbound order request (routes/orders.ts).  `quantity`
and `price` are JS numbers, modelled as rationals; a missing field is
modelled by `0` (respectively `""`), which the code's truthiness checks
treat identically. -/
structure ReqItem where
  product_id : String
  quantity : ℚ
  price : ℚ
  deriving DecidableEq

/-- Outcome of the POST /api/orders request-body validation
(routes/orders.ts lines 80-108): `some msg` is the `message` field of the
400 response produced, `none` means validation passed. -/
def validateItems : List ReqItem → Option String
  | [] => none
  | it :: rest =>
    -- if (!item.product_id || !item.quantity || !item.price)
    if it.product_id = "" ∨ it.quantity = 0 ∨ it.price = 0 then
      some "Each item must have product_id, quantity, and price"
    -- if (item.quantity <= 0 || item.price < 0)
    else if it.quantity ≤ 0 ∨ it.price < 0 then
      some "Quantity must be positive and price must be non-negative"
    else validateItems rest

/-- POST /api/orders body validation.  `items = none` models a missing or
non-array `items` value (`!items || !Array.isArray(items)`); `customer_id = ""`
models a missing or empty `customer_id` (`!customer_id`). -/
def postOrdersValidate (customer_id : String) (items : Option (List ReqItem)) :
    Option String :=
  -- if (!customer_id || !items || !Array.isArray(items) || items.length === 0)
  match items with
  | none => some "customer_id and items array are required"
  | some its =>
    if customer_id = "" ∨ its = [] then
      some "customer_id and items array are required"
    else validateItems its

/-- The validity condition the spec states for an order request: non-empty
customer_id, non-empty items, and every item with non-empty product_id,
quantity > 0 and price ≥ 0 (price 0 allowed). -/
def specValidRequest (customer_id : String) (items : Option (List ReqItem)) : Prop :=
  customer_id ≠ "" ∧ ∃ its, items = some its ∧ its ≠ [] ∧
    ∀ it ∈ its, it.product_id ≠ "" ∧ 0 < it.quantity ∧ 0 ≤ it.price

/-- A persisted row of the `orders` table.  The schema (database.ts,
`createOrdersTable`) declares `order_id VARCHAR(255) PRIMARY KEY`, so
`order_id` is a unique key. -/
structure OrderRow where
  order_id : String
  customer_id : String
  total_amount : ℚ
  items : List ReqItem
  status : String
  created_at : Nat
  deriving DecidableEq

/-- An `Order` value as handed to `insertOrder` (models/order.ts).  A missing
`status` is modelled by `""` and a missing `created_at` by `none`, which the
code's `order.status || 'pending'` and `order.created_at || new Date()`
defaults treat identically to the absent case. -/
structure Order where
  order_id : String
  customer_id : String
  total_amount : ℚ
  items : List ReqItem
  status : String
  created_at : Option Nat
  deriving DecidableEq

/-- SQL-level errors an INSERT can raise against the `orders` table. -/
inductive SqlError
  | uniqueViolation
  deriving DecidableEq

/-- Semantics of `INSERT INTO orders ... VALUES ...` against a table whose
`order_id` column is the PRIMARY KEY: without a conflict clause a duplicate
key raises a unique violation; with `ON CONFLICT (order_id) DO NOTHING` the
duplicate insert silently leaves the table unchanged. -/
def sqlInsertRow (doNothingOnConflict : Bool) (row : OrderRow)
    (tbl : List OrderRow) : Except SqlError (List OrderRow) :=
  if tbl.any (fun r => r.order_id = row.order_id) then
    if doNothingOnConflict then .ok tbl else .error .uniqueViolation
  else .ok (tbl ++ [row])

/-- `insertOrder` (models/order.ts lines 33-58): builds the VALUES tuple with
the `|| 'pending'` and `|| new Date()` defaults and executes the INSERT with
`ON CONFLICT (order_id) DO NOTHING`; `now` stands for `new Date()`. -/
def insertOrder (o : Order) (now : Nat) (tbl : List OrderRow) :
    Except SqlError (List OrderRow) :=
  sqlInsertRow true
    { order_id := o.order_id
      customer_id := o.customer_id
      total_amount := o.total_amount
      items := o.items
      status := if o.status = "" then "pending" else o.status
      created_at := o.created_at.getD now }
    tbl

/-- Insert a row into a list kept in descending `created_at` order. -/
def insertDesc (r : OrderRow) : List OrderRow → List OrderRow
  | [] => [r]
  | x :: xs =>
    if x.created_at ≤ r.created_at then r :: x :: xs else x :: insertDesc r xs

/-- ORDER BY created_at DESC: rows sorted by descending creation time
(insertion sort; the SQL result order between equal keys is unspecified and
the claims only depend on lengths and membership). -/
def orderByCreatedAtDesc : List OrderRow → List OrderRow
  | [] => []
  | x :: xs => insertDesc x (orderByCreatedAtDesc xs)

theorem length_insertDesc (r : OrderRow) (l : List OrderRow) :
    (insertDesc r l).length = l.length + 1 := by
  induction l with
  | nil => rfl
  | cons x xs ih =>
    unfold insertDesc
    by_cases hc : x.created_at ≤ r.created_at
    · rw [if_pos hc]
      simp
    · rw [if_neg hc]
      simp [ih]

theorem length_orderByCreatedAtDesc (l : List OrderRow) :
    (orderByCreatedAtDesc l).length = l.length := by
  induction l with
  | nil => rfl
  | cons x xs ih =>
    unfold orderByCreatedAtDesc
    rw [length_insertDesc, ih, List.length_cons]

/-- `getOrders` (models/order.ts lines 63-92): `offset = (page-1)*limit`,
then `SELECT ... ORDER BY created_at DESC LIMIT $limit OFFSET $offset`. -/
def getOrders (page limit : Int) (tbl : List OrderRow) : List OrderRow :=
  ((orderByCreatedAtDesc tbl).drop ((page - 1) * limit).toNat).take limit.toNat

/-- Effective value of a pagination query parameter:
`parseInt(req.query.p as string) || dflt`.  `none` models a missing
parameter or one whose parseInt is NaN; a parsed `0` is falsy and also
falls back to the default. -/
def effParam (raw : Option Int) (dflt : Int) : Int :=
  match raw with
  | some v => if v = 0 then dflt else v
  | none => dflt

/-- Response of GET /api/orders. -/
inductive ListResp
  | badRequest (msg : String)
  | ok (orders : List OrderRow) (total : Nat) (page limit : Int)
  deriving DecidableEq

/-- GET /api/orders handler (routes/orders.ts lines 14-46): defaults page
to 1 and limit to 50, rejects `page < 1` and `limit` outside `[1,100]`
with a 400, otherwise returns the page of rows together with the total
row count. -/
def getOrdersHandler (pageRaw limitRaw : Option Int) (tbl : List OrderRow) :
    ListResp :=
  let page := effParam pageRaw 1
  let limit := effParam limitRaw 50
  if page < 1 then .badRequest "Page must be greater than 0"
  else if limit < 1 ∨ limit > 100 then .badRequest "Limit must be between 1 and 100"
  else .ok (getOrders page limit tbl) tbl.length page limit

/-- The parsed JSON payload of a queue message, as far as `processMessage`
inspects it: `JSON.parse(message.Body)` gives an object whose `order_id`,
`customer_id` and `items` fields are checked for truthiness only.  A missing
or empty string field is modelled by `""`; `itemsTruthy` is the truthiness
of the `items` field (false for a missing/null/0/empty-string value, true
for any array — including an empty one — or other truthy value). -/
structure POrder where
  order_id : String
  customer_id : String
  itemsTruthy : Bool
  deriving DecidableEq

/-- The body of a received queue message.  `empty` models a Body that is
`undefined` or `""` (both falsy, caught by the `!message.Body` guard);
`invalid` a non-empty body on which `JSON.parse` throws; `parsed` a body
that parses to the given object. -/
inductive MsgBody
  | empty
  | invalid (raw : String)
  | parsed (o : POrder)
  deriving DecidableEq

/-- A received SQS message: its body and its optional receipt handle. -/
structure Msg where
  body : MsgBody
  receiptHandle : Option String
  deriving DecidableEq

/-- Failure oracle for the worker's external effects during one cycle:
which database inserts throw (pool/query error rethrown by `insertOrder`),
which status updates throw, and which queue delete-message sends throw. -/
structure WorkerEnv where
  insertFails : POrder → Bool
  updateFails : String → Bool
  deleteFails : String → Bool

/-- Side effects the worker performs, recorded as a trace.  `deleteAttempt`
records every invocation of the delete-message operation together with
whether the underlying send succeeded. -/
inductive Event
  | insertOrder (order_id : String)
  | updateStatus (order_id : String) (status : String)
  | deleteAttempt (handle : String) (ok : Bool)
  deriving DecidableEq

/-- `processMessage` (the SQS handler): returns the effects performed and
whether the call completed normally (`true`) or threw (`false`).
An empty body is warned about and returns normally; a parse failure or a
falsy required field throws; a throwing insert or status update is caught,
logged and rethrown. -/
def processMessage (env : WorkerEnv) (m : Msg) : List Event × Bool :=
  match m.body with
  | .empty => ([], true)
  | .invalid _ => ([], false)
  | .parsed o =>
    -- if (!order.order_id || !order.customer_id || !order.items) throw
    if o.order_id = "" ∨ o.customer_id = "" ∨ o.itemsTruthy = false then
      ([], false)
    else if env.insertFails o then ([], false)
    else if env.updateFails o.order_id then ([.insertOrder o.order_id], false)
    else ([.insertOrder o.order_id, .updateStatus o.order_id "completed"], true)

/-- `deleteMessage` (the SQS handler): sends the DeleteMessageCommand and
swallows any error (catch logs, nothing is rethrown), so it always returns
normally; the trace records the attempt and its success. -/
def deleteMessage (env : WorkerEnv) (handle : String) : List Event :=
  [.deleteAttempt handle (!env.deleteFails handle)]

/-- One iteration of the message loop in `pollQueue`: process the message
and, only if processing completed normally and the message carries a
receipt handle, delete it; a processing failure is caught and the loop
continues with the next message. -/
def processOne (env : WorkerEnv) (m : Msg) : List Event :=
  match processMessage env m with
  | (evs, true) =>
    match m.receiptHandle with
    | some h => evs ++ deleteMessage env h
    | none => evs
  | (evs, false) => evs

/-- The per-batch part of `pollQueue` (the SQS handler): the received
messages are processed sequentially, each with its own try/catch, so the
cycle's trace is the concatenation of the per-message traces. -/
def pollQueue (env : WorkerEnv) : List Msg → List Event
  | [] => []
  | m :: rest => processOne env m ++ pollQueue env rest

/-- State of the SQS worker module: the `isRunning` flag, the number of
pending `setImmediate(continuousPolling)` callbacks (the scheduled polling
loops), and the batch of the receive cycle currently in flight (empty when
no cycle is mid-execution).  `pollingInterval` is omitted: the source never
assigns it, so the `clearInterval` branch in `stopSqsWorker` is dead. -/
structure WorkerSt where
  isRunning : Bool
  scheduled : Nat
  inFlight : List Msg
  deriving DecidableEq

/-- `startSqsWorker` (the SQS handler): returns without change when
`QUEUE_URL` is unset or the worker is already running; otherwise sets the
running flag and schedules one `continuousPolling` callback. -/
def startSqsWorker (queueUrlSet : Bool) (w : WorkerSt) : WorkerSt :=
  if queueUrlSet = false then w
  else if w.isRunning then w
  else { w with isRunning := true, scheduled := w.scheduled + 1 }

/-- `stopSqsWorker` (the SQS handler): sets `isRunning := false` and
returns.  The `clearInterval(pollingInterval)` branch is dead code
(`pollingInterval` is never assigned), and the body contains no await of
any in-flight cycle, so the state at the moment the call returns differs
from the entry state only in the flag. -/
def stopSqsWorker (w : WorkerSt) : WorkerSt :=
  { w with isRunning := false }

/-- `isWorkerRunning` (the SQS handler). -/
def isWorkerRunning (w : WorkerSt) : Bool :=
  w.isRunning

/-- One firing of a pending `continuousPolling` callback.  If the flag is
down the callback returns without polling or rescheduling.  Otherwise the
cycle receives `batch` and processes it via `pollQueue`; `stopDuring`
models a `stopSqsWorker` call arriving at a suspension point inside the
cycle (between the awaited `pollQueue` and the final `isRunning` check),
in which case the batch is still fully processed but no next callback is
scheduled. -/
def continuousPolling (env : WorkerEnv) (batch : List Msg) (stopDuring : Bool)
    (w : WorkerSt) : WorkerSt × List Event :=
  if w.scheduled = 0 then (w, [])
  else
    let w1 : WorkerSt := { w with scheduled := w.scheduled - 1 }
    if w1.isRunning = false then (w1, [])
    else
      let evs := pollQueue env batch
      let w2 : WorkerSt := if stopDuring then stopSqsWorker w1 else w1
      if w2.isRunning then ({ w2 with scheduled := w2.scheduled + 1, inFlight := [] }, evs)
      else ({ w2 with inFlight := [] }, evs)

/-- The lifecycle operations of the main module (the shutdown path stops
these in order). -/
inductive ShutdownAction
  | stopApiServer
  | stopSqsWorker
  | closeDatabase
  deriving DecidableEq

/-- Failure oracle for the three shutdown operations. -/
structure ProcEnv where
  stopApiFails : Bool
  stopWorkerFails : Bool
  closeDbFails : Bool

/-- Result of `gracefulShutdown`: the operations invoked (in order), the
`process.exit` code if one is reached, and the shutdown-guard flag
afterwards. -/
structure ShutdownOutcome where
  actions : List ShutdownAction
  exitCode : Option Nat
  shuttingDown : Bool
  deriving DecidableEq

/-- `gracefulShutdown` (main module): a second concurrent call is a no-op;
otherwise it stops the API server, stops the SQS worker, closes the
database pool, and calls `process.exit(0)`; if any of the three throws,
the catch calls `process.exit(1)`. -/
def gracefulShutdown (env : ProcEnv) (isShuttingDown : Bool) : ShutdownOutcome :=
  if isShuttingDown then { actions := [], exitCode := none, shuttingDown := true }
  else if env.stopApiFails then
    { actions := [.stopApiServer], exitCode := some 1, shuttingDown := true }
  else if env.stopWorkerFails then
    { actions := [.stopApiServer, .stopSqsWorker], exitCode := some 1, shuttingDown := true }
  else if env.closeDbFails then
    { actions := [.stopApiServer, .stopSqsWorker, .closeDatabase], exitCode := some 1,
      shuttingDown := true }
  else
    { actions := [.stopApiServer, .stopSqsWorker, .closeDatabase], exitCode := some 0,
      shuttingDown := true }

/-- The `process.on('SIGTERM', ...)` handler (main module): invokes
`gracefulShutdown('SIGTERM')`. -/
def onSigterm (env : ProcEnv) (isShuttingDown : Bool) : ShutdownOutcome :=
  gracefulShutdown env isShuttingDown

/-- The `process.on('uncaughtException', ...)` handler (main module):
invokes `gracefulShutdown('uncaughtException')`. -/
def onUncaughtException (env : ProcEnv) (isShuttingDown : Bool) : ShutdownOutcome :=
  gracefulShutdown env isShuttingDown

/-- The `process.on('unhandledRejection', ...)` handler (main module):
invokes `gracefulShutdown('unhandledRejection')`. -/
def onUnhandledRejection (env : ProcEnv) (isShuttingDown : Bool) : ShutdownOutcome :=
  gracefulShutdown env isShuttingDown

/-- A sample order used as a concrete witness input. -/
def oEx : Order :=
  { order_id := "o-1", customer_id := "c-1", total_amount := 10,
    items := [], status := "", created_at := none }

/-- C2: calling the store insert twice with the same order identifier leaves
exactly one row with that identifier, and the second call does not raise
(the `ON CONFLICT (order_id) DO NOTHING` clause makes the duplicate insert a
silent no-op against the `order_id` primary key). -/
theorem insertOrder_idempotent (o : Order) (now1 now2 : Nat) (tbl : List OrderRow)
    (hfresh : tbl.countP (fun r => r.order_id == o.order_id) = 0) :
    ∃ tbl1, insertOrder o now1 tbl = .ok tbl1 ∧
      insertOrder o now2 tbl1 = .ok tbl1 ∧
      tbl1.countP (fun r => r.order_id == o.order_id) = 1 := by
  have hnone : tbl.any (fun r => r.order_id = o.order_id) = false := by
    rw [Bool.eq_false_iff]
    intro hany
    obtain ⟨r, hr, hrid⟩ := List.any_eq_true.mp hany
    have := List.countP_eq_zero.mp hfresh r hr
    simp only [beq_iff_eq] at this
    exact this (by simpa using hrid)
  refine ⟨tbl ++ [(⟨o.order_id, o.customer_id, o.total_amount, o.items,
      if o.status = "" then "pending" else o.status,
      o.created_at.getD now1⟩ : OrderRow)], ?_, ?_, ?_⟩
  · simp [insertOrder, sqlInsertRow, hnone]
  · simp [insertOrder, sqlInsertRow]
  · rw [List.countP_append, hfresh]
    simp [List.countP_cons]

/-- Witness for C2 at a concrete order and the empty table. -/
theorem insertOrder_idempotent_witness :
    ([] : List OrderRow).countP (fun r => r.order_id == oEx.order_id) = 0 ∧
    ∃ tbl1, insertOrder oEx 5 [] = .ok tbl1 ∧
      insertOrder oEx 6 tbl1 = .ok tbl1 ∧
      tbl1.countP (fun r => r.order_id == oEx.order_id) = 1 :=
  ⟨by decide, insertOrder_idempotent oEx 5 6 [] (by decide)⟩

/-- C4: the POST /api/orders validation rejects an item with price exactly 0
with a 400 response, although the request is valid per the spec (non-empty
customer_id, non-empty items, non-empty product_id, quantity > 0,
price ≥ 0): the presence check `!item.price` is true for the falsy number 0
and fires before the `item.price < 0` range check ever runs. -/
theorem postOrders_price_zero_rejected :
    postOrdersValidate "c1" (some [{ product_id := "p1", quantity := 1, price := 0 }]) =
      some "Each item must have product_id, quantity, and price" ∧
    specValidRequest "c1" (some [{ product_id := "p1", quantity := 1, price := 0 }]) := by
  refine ⟨by decide, ?_⟩
  refine ⟨by decide, [{ product_id := "p1", quantity := 1, price := 0 }], rfl, by decide, ?_⟩
  intro it hit
  rw [List.mem_singleton] at hit
  subst hit
  refine ⟨by decide, by norm_num, le_refl 0⟩

/-- A process environment in which all three shutdown operations succeed. -/
def procEnvOk : ProcEnv :=
  { stopApiFails := false, stopWorkerFails := false, closeDbFails := false }

/-- C8: every unhandled exception or unhandled promise rejection triggers
exactly the same shutdown path as a termination signal (stop API server,
stop worker, close database), but when that shutdown succeeds the process
exits with status 0, not the non-zero status the spec requires. -/
theorem uncaughtException_same_path_exit_zero :
    (∀ env s, onUncaughtException env s = onSigterm env s ∧
      onUnhandledRejection env s = onSigterm env s) ∧
    (onUncaughtException procEnvOk false).actions =
      [.stopApiServer, .stopSqsWorker, .closeDatabase] ∧
    (onUncaughtException procEnvOk false).exitCode = some 0 :=
  ⟨fun _ _ => ⟨rfl, rfl⟩, rfl, rfl⟩

/-- C5 counterexample: `GET /api/orders?page=0` does not return 400.  The
handler computes `parseInt(page) || 1`, and the parsed value 0 is falsy, so
it silently becomes the default page 1 and the `page < 1` check never
fires: the request succeeds with a 200. -/
theorem getOrders_page_zero_not_badRequest :
    getOrdersHandler (some 0) none [] = ListResp.ok [] 0 1 50 ∧
    ∀ msg, getOrdersHandler (some 0) none [] ≠ ListResp.badRequest msg := by
  constructor
  · decide
  · intro msg h
    have hok : getOrdersHandler (some 0) none [] = ListResp.ok [] 0 1 50 := by decide
    rw [hok] at h
    cases h

/-- C5 amended: with `p` and `l` the effective page and limit (the parsed
parameter, with a missing, NaN or 0 value replaced by the defaults 1 and
50), the handler returns 400 exactly when `p < 1` (only possible for a
negative parsed page — page=0 falls back to the default and yields 200) or
`l` is outside [1,100]; otherwise it returns 200 with the requested slice
of the rows ordered newest first, the total row count, `p` and `l`; the
returned page holds `min l (total - (p-1)*l)` orders. -/
theorem getOrdersHandler_spec (pageRaw limitRaw : Option Int) (tbl : List OrderRow) :
    ((∃ msg, getOrdersHandler pageRaw limitRaw tbl = ListResp.badRequest msg) ↔
      (effParam pageRaw 1 < 1 ∨ effParam limitRaw 50 < 1 ∨ effParam limitRaw 50 > 100)) ∧
    (1 ≤ effParam pageRaw 1 → 1 ≤ effParam limitRaw 50 → effParam limitRaw 50 ≤ 100 →
      getOrdersHandler pageRaw limitRaw tbl =
        ListResp.ok (getOrders (effParam pageRaw 1) (effParam limitRaw 50) tbl)
          tbl.length (effParam pageRaw 1) (effParam limitRaw 50) ∧
      (getOrders (effParam pageRaw 1) (effParam limitRaw 50) tbl).length =
        min (effParam limitRaw 50).toNat
          (tbl.length - ((effParam pageRaw 1 - 1) * effParam limitRaw 50).toNat)) := by
  constructor
  · constructor
    · rintro ⟨msg, hmsg⟩
      by_contra hcon
      push_neg at hcon
      obtain ⟨hp, hl1, hl2⟩ := hcon
      have : getOrdersHandler pageRaw limitRaw tbl =
          ListResp.ok (getOrders (effParam pageRaw 1) (effParam limitRaw 50) tbl)
            tbl.length (effParam pageRaw 1) (effParam limitRaw 50) := by
        unfold getOrdersHandler
        rw [if_neg (by omega), if_neg (by omega)]
      rw [this] at hmsg
      cases hmsg
    · intro hbad
      unfold getOrdersHandler
      by_cases hp : effParam pageRaw 1 < 1
      · exact ⟨"Page must be greater than 0", by rw [if_pos hp]⟩
      · refine ⟨"Limit must be between 1 and 100", ?_⟩
        rw [if_neg hp, if_pos (by omega)]
  · intro hp hl1 hl2
    constructor
    · unfold getOrdersHandler
      rw [if_neg (by omega), if_neg (by omega)]
    · unfold getOrders
      rw [List.length_take, List.length_drop, length_orderByCreatedAtDesc]

/-- A table of 45 identical rows used as a concrete witness input. -/
def tbl45 : List OrderRow :=
  List.replicate 45
    { order_id := "o-1", customer_id := "c-1", total_amount := 0,
      items := [], status := "pending", created_at := 0 }

/-- Witness for C5 at `page=1&limit=20` against 45 stored orders: a 200 with
20 orders and total 45. -/
theorem getOrdersHandler_spec_witness :
    getOrdersHandler (some 1) (some 20) tbl45 =
      ListResp.ok (getOrders 1 20 tbl45) 45 1 20 ∧
    (getOrders 1 20 tbl45).length = 20 := by
  have h := (getOrdersHandler_spec (some 1) (some 20) tbl45).2
    (by decide) (by decide) (by decide)
  have hlen : tbl45.length = 45 := by
    unfold tbl45
    rw [List.length_replicate]
  have hp : effParam (some 1) 1 = 1 := by decide
  have hl : effParam (some 20) 50 = 20 := by decide
  rw [hp, hl, hlen] at h
  constructor
  · exact h.1
  · rw [h.2]
    decide

theorem processMessage_no_delete (env : WorkerEnv) (m : Msg) (h : String) (ok : Bool) :
    Event.deleteAttempt h ok ∉ (processMessage env m).1 := by
  obtain ⟨body, rh⟩ := m
  cases body with
  | empty => simp [processMessage]
  | invalid raw => simp [processMessage]
  | parsed o =>
    unfold processMessage
    dsimp only
    split
    · simp
    · split
      · simp
      · split
        · simp
        · simp

theorem processMessage_fails_of_oracle (env : WorkerEnv) (m : Msg) (o : POrder)
    (hb : m.body = .parsed o)
    (hfail : env.insertFails o = true ∨ env.updateFails o.order_id = true) :
    (processMessage env m).2 = false := by
  obtain ⟨body, rh⟩ := m
  cases hb
  unfold processMessage
  dsimp only
  split
  · rfl
  · split
    · rfl
    · split
      · rfl
      · rcases hfail with hf | hf <;> simp_all

theorem processMessage_fails_of_bad_payload (env : WorkerEnv) (m : Msg)
    (hbad : (∃ raw, m.body = .invalid raw) ∨
      (∃ o, m.body = .parsed o ∧
        (o.order_id = "" ∨ o.customer_id = "" ∨ o.itemsTruthy = false))) :
    (processMessage env m).2 = false := by
  obtain ⟨body, rh⟩ := m
  rcases hbad with ⟨raw, hb⟩ | ⟨o, hb, hfields⟩
  · cases hb
    rfl
  · cases hb
    unfold processMessage
    dsimp only
    rw [if_pos hfields]

theorem processMessage_success (env : WorkerEnv) (m : Msg) (o : POrder)
    (hb : m.body = .parsed o)
    (hfields : ¬(o.order_id = "" ∨ o.customer_id = "" ∨ o.itemsTruthy = false))
    (hins : env.insertFails o = false) (hupd : env.updateFails o.order_id = false) :
    processMessage env m =
      ([.insertOrder o.order_id, .updateStatus o.order_id "completed"], true) := by
  obtain ⟨body, rh⟩ := m
  cases hb
  unfold processMessage
  dsimp only
  rw [if_neg hfields, if_neg (by simp [hins]), if_neg (by simp [hupd])]

theorem deleteAttempt_mem_pollQueue (env : WorkerEnv) (msgs : List Msg)
    (h : String) (ok : Bool)
    (hmem : Event.deleteAttempt h ok ∈ pollQueue env msgs) :
    ∃ m, m ∈ msgs ∧ m.receiptHandle = some h ∧ (processMessage env m).2 = true := by
  induction msgs with
  | nil => cases hmem
  | cons m rest ih =>
    rw [pollQueue] at hmem
    rcases List.mem_append.mp hmem with hin | hin
    · rcases hpm : processMessage env m with ⟨evs, b⟩
      unfold processOne at hin
      rw [hpm] at hin
      cases b with
      | false =>
        have := processMessage_no_delete env m h ok
        rw [hpm] at this
        exact absurd hin this
      | true =>
        rcases hrh : m.receiptHandle with _ | h'
        · rw [hrh] at hin
          have := processMessage_no_delete env m h ok
          rw [hpm] at this
          exact absurd hin this
        · rw [hrh] at hin
          rcases List.mem_append.mp hin with hin2 | hin2
          · have := processMessage_no_delete env m h ok
            rw [hpm] at this
            exact absurd hin2 this
          · unfold deleteMessage at hin2
            rw [List.mem_singleton] at hin2
            injection hin2 with h1 h2
            refine ⟨m, List.mem_cons_self m rest, ?_, by rw [hpm]⟩
            rw [hrh, h1]
    · obtain ⟨m', hm', hh', hp'⟩ := ih hin
      exact ⟨m', List.mem_cons_of_mem m hm', hh', hp'⟩

theorem pollQueue_eq_flatMap (env : WorkerEnv) (msgs : List Msg) :
    pollQueue env msgs = msgs.flatMap (processOne env) := by
  induction msgs with
  | nil => rfl
  | cons m rest ih => rw [pollQueue, List.flatMap_cons, ih]

theorem mem_pollQueue_of_mem (env : WorkerEnv) {msgs : List Msg} {m : Msg}
    {e : Event} (hm : m ∈ msgs) (he : e ∈ processOne env m) :
    e ∈ pollQueue env msgs := by
  induction msgs with
  | nil => cases hm
  | cons m0 rest ih =>
    rw [pollQueue]
    rcases List.mem_cons.mp hm with heq | hmem
    · subst heq
      exact List.mem_append.mpr (Or.inl he)
    · exact List.mem_append.mpr (Or.inr (ih hmem))

/-- C1: within one receive cycle, if processing a message fails because the
store insert or the status update throws, the delete-message operation is
never invoked for that message (its receipt handle never appears in a
delete attempt of the cycle), the cycle processes every message of the
batch independently (its trace is the concatenation of the per-message
traces), and every other message that processes successfully is persisted,
marked completed and has its delete invoked. -/
theorem pollQueue_fail_no_delete (env : WorkerEnv) (msgs : List Msg) (m : Msg)
    (o : POrder) (h : String)
    (hm : m ∈ msgs) (hb : m.body = .parsed o)
    (hfail : env.insertFails o = true ∨ env.updateFails o.order_id = true)
    (hh : m.receiptHandle = some h)
    (huniq : ∀ m' ∈ msgs, m'.receiptHandle = some h → m' = m) :
    (∀ ok, Event.deleteAttempt h ok ∉ pollQueue env msgs) ∧
    pollQueue env msgs = msgs.flatMap (processOne env) ∧
    (∀ m' ∈ msgs, ∀ o' h', m'.body = .parsed o' → m'.receiptHandle = some h' →
      ¬(o'.order_id = "" ∨ o'.customer_id = "" ∨ o'.itemsTruthy = false) →
      env.insertFails o' = false → env.updateFails o'.order_id = false →
      Event.insertOrder o'.order_id ∈ pollQueue env msgs ∧
      Event.updateStatus o'.order_id "completed" ∈ pollQueue env msgs ∧
      Event.deleteAttempt h' (!env.deleteFails h') ∈ pollQueue env msgs) := by
  refine ⟨?_, pollQueue_eq_flatMap env msgs, ?_⟩
  · intro ok hmem
    obtain ⟨m', hm', hh', hp'⟩ := deleteAttempt_mem_pollQueue env msgs h ok hmem
    have hmm : m' = m := huniq m' hm' hh'
    subst hmm
    rw [processMessage_fails_of_oracle env m' o hb hfail] at hp'
    cases hp'
  · intro m' hm' o' h' hb' hh' hfields' hins' hupd'
    have hpm : processMessage env m' =
        ([.insertOrder o'.order_id, .updateStatus o'.order_id "completed"], true) :=
      processMessage_success env m' o' hb' hfields' hins' hupd'
    have hone : processOne env m' =
        [Event.insertOrder o'.order_id, Event.updateStatus o'.order_id "completed",
          Event.deleteAttempt h' (!env.deleteFails h')] := by
      unfold processOne
      rw [hpm, hh']
      rfl
    refine ⟨?_, ?_, ?_⟩ <;>
      exact mem_pollQueue_of_mem env hm' (by rw [hone]; simp)

/-- A worker environment in which the insert of order oA throws and every
other effect succeeds. -/
def envFailA : WorkerEnv :=
  { insertFails := fun o => o.order_id == "oA",
    updateFails := fun _ => false,
    deleteFails := fun _ => false }

/-- The failing message of the witness batch. -/
def msgA : Msg :=
  { body := .parsed { order_id := "oA", customer_id := "c-1", itemsTruthy := true },
    receiptHandle := some "hA" }

/-- The succeeding message of the witness batch. -/
def msgB : Msg :=
  { body := .parsed { order_id := "oB", customer_id := "c-2", itemsTruthy := true },
    receiptHandle := some "hB" }

/-- Witness for C1 on a concrete two-message batch in which the first
message's insert throws: its handle is never deleted, and the second
message is still persisted, completed and deleted. -/
theorem pollQueue_fail_no_delete_witness :
    (msgA ∈ [msgA, msgB] ∧ envFailA.insertFails
      { order_id := "oA", customer_id := "c-1", itemsTruthy := true } = true) ∧
    (∀ ok, Event.deleteAttempt "hA" ok ∉ pollQueue envFailA [msgA, msgB]) ∧
    Event.insertOrder "oB" ∈ pollQueue envFailA [msgA, msgB] ∧
    Event.deleteAttempt "hB" (!envFailA.deleteFails "hB") ∈ pollQueue envFailA [msgA, msgB] := by
  have h := pollQueue_fail_no_delete envFailA [msgA, msgB] msgA
    { order_id := "oA", customer_id := "c-1", itemsTruthy := true } "hA"
    (by decide) rfl (Or.inl (by decide)) rfl (by decide)
  have hB := h.2.2 msgB (by decide)
    { order_id := "oB", customer_id := "c-2", itemsTruthy := true } "hB"
    rfl rfl (by decide) (by decide) (by decide)
  exact ⟨⟨by decide, by decide⟩, h.1, hB.1, hB.2.2⟩

/-- A worker environment in which every effect succeeds. -/
def envOk : WorkerEnv :=
  { insertFails := fun _ => false,
    updateFails := fun _ => false,
    deleteFails := fun _ => false }

/-- C3 counterexample: a received message whose body is absent or empty is
NOT treated as a processing failure — the `!message.Body` guard returns
normally, so the cycle proceeds to invoke the delete-message operation and
the message is removed from the queue instead of being left for
redelivery. -/
theorem emptyBody_message_is_deleted :
    pollQueue envOk [{ body := .empty, receiptHandle := some "h1" }] =
      [Event.deleteAttempt "h1" true] := by
  decide

/-- C3 amended: a message whose (non-empty) payload fails to parse as JSON,
or parses but lacks a required field (order_id, customer_id or items), is
treated as a processing failure and its delete is never invoked, leaving
it for the queue redelivery/dead-letter mechanism; a message whose body is
absent or empty, however, is skipped as if successfully processed and its
delete IS invoked. -/
theorem pollQueue_bad_payload_no_delete (env : WorkerEnv) (msgs : List Msg)
    (m : Msg) (h : String)
    (hm : m ∈ msgs) (hh : m.receiptHandle = some h)
    (hbad : (∃ raw, m.body = .invalid raw) ∨
      (∃ o, m.body = .parsed o ∧
        (o.order_id = "" ∨ o.customer_id = "" ∨ o.itemsTruthy = false)))
    (huniq : ∀ m' ∈ msgs, m'.receiptHandle = some h → m' = m) :
    (∀ ok, Event.deleteAttempt h ok ∉ pollQueue env msgs) ∧
    (∀ h', processOne env { body := .empty, receiptHandle := some h' } =
      [Event.deleteAttempt h' (!env.deleteFails h')]) := by
  constructor
  · intro ok hmem
    obtain ⟨m', hm', hh', hp'⟩ := deleteAttempt_mem_pollQueue env msgs h ok hmem
    have hmm : m' = m := huniq m' hm' hh'
    subst hmm
    rw [processMessage_fails_of_bad_payload env m' hbad] at hp'
    cases hp'
  · intro h'
    rfl

/-- A message whose body parses but lacks the customer_id field. -/
def msgNoCustomer : Msg :=
  { body := .parsed { order_id := "oC", customer_id := "", itemsTruthy := true },
    receiptHandle := some "hC" }

/-- Witness for the amended C3 on a concrete batch holding one message with
a missing required field: its delete is never invoked. -/
theorem pollQueue_bad_payload_no_delete_witness :
    (msgNoCustomer ∈ [msgNoCustomer] ∧ msgNoCustomer.receiptHandle = some "hC") ∧
    (∀ ok, Event.deleteAttempt "hC" ok ∉ pollQueue envOk [msgNoCustomer]) ∧
    (∀ h', processOne envOk { body := .empty, receiptHandle := some h' } =
      [Event.deleteAttempt h' (!envOk.deleteFails h')]) := by
  have h := pollQueue_bad_payload_no_delete envOk [msgNoCustomer] msgNoCustomer "hC"
    (by decide) rfl
    (Or.inr ⟨{ order_id := "oC", customer_id := "", itemsTruthy := true }, rfl, by decide⟩)
    (by decide)
  exact ⟨⟨by decide, rfl⟩, h.1, h.2⟩

/-- Map every delete attempt to a successful one, erasing the success flag:
two traces equal up to `scrubDelete` perform the same inserts, status
updates and delete invocations, and differ at most in which deletes
succeeded. -/
def scrubDelete : Event → Event
  | .deleteAttempt h _ => .deleteAttempt h true
  | e => e

theorem processMessage_deleteFails_irrel (env : WorkerEnv)
    (f : String → Bool) (m : Msg) :
    processMessage { env with deleteFails := f } m = processMessage env m := by
  rfl

theorem pollQueue_scrub_deleteFails_irrel (env : WorkerEnv)
    (f : String → Bool) (msgs : List Msg) :
    (pollQueue { env with deleteFails := f } msgs).map scrubDelete =
      (pollQueue env msgs).map scrubDelete := by
  induction msgs with
  | nil => rfl
  | cons m rest ih =>
    rw [pollQueue, pollQueue, List.map_append, List.map_append, ih]
    have hone : (processOne { env with deleteFails := f } m).map scrubDelete =
        (processOne env m).map scrubDelete := by
      unfold processOne
      rw [processMessage_deleteFails_irrel]
      rcases hpm : processMessage env m with ⟨evs, b⟩
      cases b with
      | false => rfl
      | true =>
        rcases hrh : m.receiptHandle with _ | h'
        · rfl
        · rw [List.map_append, List.map_append]
          unfold deleteMessage
          rfl
    rw [hone]

/-- C9: a failure of the queue delete operation is swallowed inside
`deleteMessage` (its catch logs and does not rethrow): a successfully
processed message is still persisted and marked completed, the delete is
still merely attempted, and the whole cycle's trace — inserts, status
updates, which messages get delete invocations, and the processing of
every subsequent message — is identical to the trace under an environment
whose deletes all succeed; the only difference is the recorded success of
the delete itself (so the message may be redelivered, which the idempotent
insert absorbs). -/
theorem deleteFailure_swallowed (env : WorkerEnv) (msgs : List Msg)
    (m : Msg) (o : POrder) (h : String)
    (hm : m ∈ msgs) (hb : m.body = .parsed o) (hh : m.receiptHandle = some h)
    (hfields : ¬(o.order_id = "" ∨ o.customer_id = "" ∨ o.itemsTruthy = false))
    (hins : env.insertFails o = false) (hupd : env.updateFails o.order_id = false)
    (hdel : env.deleteFails h = true) :
    Event.insertOrder o.order_id ∈ pollQueue env msgs ∧
    Event.updateStatus o.order_id "completed" ∈ pollQueue env msgs ∧
    Event.deleteAttempt h false ∈ pollQueue env msgs ∧
    (pollQueue env msgs).map scrubDelete =
      (pollQueue { env with deleteFails := fun _ => false } msgs).map scrubDelete := by
  have hpm : processMessage env m =
      ([.insertOrder o.order_id, .updateStatus o.order_id "completed"], true) :=
    processMessage_success env m o hb hfields hins hupd
  have hone : processOne env m =
      [Event.insertOrder o.order_id, Event.updateStatus o.order_id "completed",
        Event.deleteAttempt h (!env.deleteFails h)] := by
    unfold processOne
    rw [hpm, hh]
    rfl
  rw [hdel] at hone
  refine ⟨?_, ?_, ?_, ?_⟩
  · exact mem_pollQueue_of_mem env hm (by rw [hone]; simp)
  · exact mem_pollQueue_of_mem env hm (by rw [hone]; simp)
  · exact mem_pollQueue_of_mem env hm (by rw [hone]; simp)
  · have := pollQueue_scrub_deleteFails_irrel env (fun _ => false) msgs
    rw [this]

/-- A worker environment in which only the queue delete of handle hD
throws. -/
def envDelFail : WorkerEnv :=
  { insertFails := fun _ => false,
    updateFails := fun _ => false,
    deleteFails := fun hnd => hnd == "hD" }

/-- The witness message for C9. -/
def msgD : Msg :=
  { body := .parsed { order_id := "oD", customer_id := "c-9", itemsTruthy := true },
    receiptHandle := some "hD" }

/-- Witness for C9 on a concrete batch whose single message processes
successfully but whose delete throws. -/
theorem deleteFailure_swallowed_witness :
    (msgD ∈ [msgD] ∧ envDelFail.deleteFails "hD" = true) ∧
    Event.insertOrder "oD" ∈ pollQueue envDelFail [msgD] ∧
    Event.updateStatus "oD" "completed" ∈ pollQueue envDelFail [msgD] ∧
    Event.deleteAttempt "hD" false ∈ pollQueue envDelFail [msgD] ∧
    (pollQueue envDelFail [msgD]).map scrubDelete =
      (pollQueue { envDelFail with deleteFails := fun _ => false } [msgD]).map scrubDelete := by
  have h := deleteFailure_swallowed envDelFail [msgD] msgD
    { order_id := "oD", customer_id := "c-9", itemsTruthy := true } "hD"
    (by decide) rfl rfl (by decide) (by decide) (by decide) (by decide)
  exact ⟨⟨by decide, by decide⟩, h.1, h.2.1, h.2.2.1, h.2.2.2⟩

/-- C7 counterexample: invoking stop while a batch is in flight returns with
the in-flight messages still unprocessed — `stopSqsWorker` only flips the
running flag (its `clearInterval` branch is dead and its body awaits
nothing), so the in-flight cycle has not finished when the stop call
returns, and no maximum drain wait exists anywhere in the module. -/
theorem stop_does_not_drain :
    (stopSqsWorker { isRunning := true, scheduled := 0, inFlight := [msgA] }).inFlight =
      [msgA] ∧
    (stopSqsWorker { isRunning := true, scheduled := 0, inFlight := [msgA] }).inFlight ≠
      [] := by
  exact ⟨rfl, by decide⟩

/-- C7 amended: stop flips the running flag so that no further receive
cycles run (a pending polling callback firing after stop exits without
polling or rescheduling), and it does not interrupt the in-flight cycle —
a cycle that is already past the flag check still processes its entire
batch (full event trace) and merely schedules no successor; but the stop
call returns immediately, leaving the in-flight batch untouched at return
time, with no maximum drain wait. -/
theorem stopSqsWorker_spec (w : WorkerSt) (env : WorkerEnv) (batch : List Msg) :
    (stopSqsWorker w).isRunning = false ∧
    (stopSqsWorker w).scheduled = w.scheduled ∧
    (stopSqsWorker w).inFlight = w.inFlight ∧
    (∀ sd, w.scheduled ≠ 0 →
      continuousPolling env batch sd (stopSqsWorker w) =
        ({ isRunning := false, scheduled := w.scheduled - 1, inFlight := w.inFlight }, [])) ∧
    (w.scheduled ≠ 0 → w.isRunning = true →
      continuousPolling env batch true w =
        ({ isRunning := false, scheduled := w.scheduled - 1, inFlight := [] },
          pollQueue env batch)) := by
  obtain ⟨run, sch, fl⟩ := w
  refine ⟨rfl, rfl, rfl, ?_, ?_⟩
  · intro sd hsch
    simp [continuousPolling, stopSqsWorker, hsch]
  · intro hsch hrun
    subst hrun
    simp [continuousPolling, stopSqsWorker, hsch]

/-- Witness for the amended C7 at a concrete one-message batch with one
pending callback. -/
theorem stopSqsWorker_spec_witness :
    (stopSqsWorker { isRunning := true, scheduled := 1, inFlight := [] }).isRunning = false ∧
    continuousPolling envOk [msgB] false
        (stopSqsWorker { isRunning := true, scheduled := 1, inFlight := [] }) =
      ({ isRunning := false, scheduled := 0, inFlight := [] }, []) ∧
    continuousPolling envOk [msgB] true
        { isRunning := true, scheduled := 1, inFlight := [] } =
      ({ isRunning := false, scheduled := 0, inFlight := [] }, pollQueue envOk [msgB]) := by
  have h := stopSqsWorker_spec { isRunning := true, scheduled := 1, inFlight := [] }
    envOk [msgB]
  exact ⟨h.1, h.2.2.2.1 false (by decide), h.2.2.2.2 (by decide) rfl⟩

/-- C10 counterexample: starting the worker, stopping it, and starting it
again before the still-pending polling callback has fired leaves TWO
pending polling callbacks, and a subsequent firing keeps both loops alive
(each cycle reschedules itself), so more than one polling loop is active
in the process. -/
theorem start_stop_start_two_loops :
    (startSqsWorker true (stopSqsWorker (startSqsWorker true
      { isRunning := false, scheduled := 0, inFlight := [] }))).scheduled = 2 ∧
    (continuousPolling envOk [] false (startSqsWorker true (stopSqsWorker
      (startSqsWorker true { isRunning := false, scheduled := 0, inFlight := [] })))).1.scheduled =
      2 := by
  decide

/-- States reachable in a process that starts the worker exactly once from
the initial state (as the main module does) and thereafter only stops it
or lets pending polling callbacks fire. -/
inductive SingleStart : WorkerSt → Prop
  | start : SingleStart (startSqsWorker true
      { isRunning := false, scheduled := 0, inFlight := [] })
  | stop {w : WorkerSt} : SingleStart w → SingleStart (stopSqsWorker w)
  | fire {w : WorkerSt} (env : WorkerEnv) (batch : List Msg) (sd : Bool) :
      SingleStart w → SingleStart (continuousPolling env batch sd w).1

theorem singleStart_scheduled_le_one {w : WorkerSt} (hw : SingleStart w) :
    w.scheduled ≤ 1 := by
  induction hw with
  | start => decide
  | stop hw ih => exact ih
  | fire env batch sd hw ih =>
    rename_i w0
    obtain ⟨run, sch, fl⟩ := w0
    have ihs : sch ≤ 1 := ih
    unfold continuousPolling
    split
    · exact ih
    · dsimp only
      split
      · show sch - 1 ≤ 1
        omega
      · split_ifs <;> simp [stopSqsWorker] <;> omega

/-- C10 amended: calling startSqsWorker with no configured QUEUE_URL, or
while the worker is already running, is a no-op (state unchanged, nothing
scheduled); the running flag is turned off by stop, never turned on by a
polling callback, and becomes true through a start only when the queue is
configured or it was already true; and along any lifecycle that starts the
worker exactly once, at most one polling callback is ever pending.
However (see the counterexample) a stop followed by a fresh start before
the pending callback fires yields two concurrent polling loops, so the
at-most-one-loop consequence claimed does not hold unconditionally. -/
theorem startSqsWorker_noop_spec (cfg : Bool) (w : WorkerSt) (env : WorkerEnv)
    (batch : List Msg) (sd : Bool) :
    startSqsWorker false w = w ∧
    (w.isRunning = true → startSqsWorker cfg w = w) ∧
    isWorkerRunning (stopSqsWorker w) = false ∧
    (isWorkerRunning (startSqsWorker cfg w) = true → cfg = true ∨ w.isRunning = true) ∧
    ((continuousPolling env batch sd w).1.isRunning = true → w.isRunning = true) ∧
    (∀ w', SingleStart w' → w'.scheduled ≤ 1) := by
  obtain ⟨run, sch, fl⟩ := w
  refine ⟨rfl, ?_, rfl, ?_, ?_, fun w' hw' => singleStart_scheduled_le_one hw'⟩
  · intro hrun
    subst hrun
    cases cfg <;> rfl
  · intro hstart
    cases cfg with
    | false => exact Or.inr hstart
    | true => exact Or.inl rfl
  · intro hfire
    unfold continuousPolling at hfire
    by_cases h0 : sch = 0
    · rw [if_pos h0] at hfire
      exact hfire
    · rw [if_neg h0] at hfire
      dsimp only at hfire
      by_cases hrun : run = false
      · subst hrun
        rw [if_pos rfl] at hfire
        exact hfire
      · cases run with
        | false => exact absurd rfl hrun
        | true => rfl

/-- The worker state right after the single start of the process. -/
def wStarted : WorkerSt :=
  startSqsWorker true { isRunning := false, scheduled := 0, inFlight := [] }

/-- Witness for the amended C10: the started worker is running, a second
start is a no-op, and the single-start invariant bounds its pending
callbacks by one. -/
theorem startSqsWorker_noop_spec_witness :
    (wStarted.isRunning = true ∧ startSqsWorker true wStarted = wStarted) ∧
    SingleStart wStarted ∧ wStarted.scheduled ≤ 1 := by
  have h := startSqsWorker_noop_spec true wStarted envOk [] false
  exact ⟨⟨by decide, h.2.1 (by decide)⟩, .start, h.2.2.2.2.2 wStarted .start⟩
